import Mathlib

/-!
Shallow embedding of the runtime-configuration subsystem of the edgedb
server: the CONFIGURE statement compiler (edb/edgeql/compiler/config.py)
and the server-side config dispatcher, listener lifecycle manager and
system-connection arbitrator (edb/server/server.py).

Conventions: Python exceptions become an explicit error type carried in
an Except result; in-place mutation of the compilation context or of the
server object becomes explicit state threading; external async calls
(port.start, port.stop, the expression compiler) become oracle
parameters giving their outcome.
-/

set_option autoImplicit false

namespace EdgeDBConfig

/-- Error classes raised by the config compiler, one constructor per
raise site in edb/edgeql/compiler/config.py, each carrying the data
interpolated into the message. -/
inductive CompileErr where
  | queryErrorBadModule : CompileErr
  | queryErrorResetFilter : CompileErr
  | queryErrorNonConstant (scopeName : String) : CompileErr
  | unrecognizedParameter (name : String) : CompileErr
  | unrecognizedObject (name : String) : CompileErr
  | cannotConfigureDirectly (name : String) : CompileErr
  | systemLevelScope (name : String) : CompileErr
  | notValidConfigItem (name : String) : CompileErr
  | unsupportedInsertScope (scopeName : String) : CompileErr
deriving DecidableEq, Repr

/-- Classification of an error as a ConfigurationError, mirroring the
Python exception class of each raise site. -/
def CompileErr.isConfigurationError : CompileErr → Bool
  | .unrecognizedParameter _ => true
  | .unrecognizedObject _ => true
  | .cannotConfigureDirectly _ => true
  | .systemLevelScope _ => true
  | .notValidConfigItem _ => true
  | _ => false

/-- Classification of an error as an UnsupportedFeatureError. -/
def CompileErr.isUnsupportedFeatureError : CompileErr → Bool
  | .unsupportedInsertScope _ => true
  | _ => false

/-- Rendered message of each error, following the format strings in the
source (repr quotes around names are omitted). -/
def CompileErr.message : CompileErr → String
  | .queryErrorBadModule =>
      "invalid configuration parameter name: module must be either cfg or empty"
  | .queryErrorResetFilter =>
      "RESET of a primitive configuration parameter must not have a FILTER clause"
  | .queryErrorNonConstant s => "non-constant expression in CONFIGURE " ++ s ++ " SET"
  | .unrecognizedParameter n => "unrecognized configuration parameter " ++ n
  | .unrecognizedObject n => "unrecognized configuration object " ++ n
  | .cannotConfigureDirectly n => n ++ " cannot be configured directly"
  | .systemLevelScope n =>
      n ++ " is a system-level configuration parameter; use CONFIGURE INSTANCE"
  | .notValidConfigItem n => n ++ " is not a valid configuration item"
  | .unsupportedInsertScope s => "CONFIGURE " ++ s ++ " INSERT is not supported"

/-- Configuration scopes (qltypes.ConfigScope). -/
inductive ConfigScope where
  | Session : ConfigScope
  | Database : ConfigScope
  | Instance : ConfigScope
deriving DecidableEq, Repr

def ConfigScope.render : ConfigScope → String
  | .Session => "SESSION"
  | .Database => "DATABASE"
  | .Instance => "INSTANCE"

/-- Schema cardinality of a pointer (qltypes.SchemaCardinality). -/
inductive SchemaCard where
  | One : SchemaCard
  | Many : SchemaCard
deriving DecidableEq, Repr

/-- A pointer (link or property) of the catalog as the config compiler
sees it: its short name, its target type, its cardinality, its cfg
annotations as an association list from annotation name to value, and
its source type (None models get_source returning no source). -/
structure Ptr where
  shortname : String
  targetName : String
  targetIsObject : Bool
  card : SchemaCard
  anns : List (String × String)
  source : Option String
deriving DecidableEq, Repr

/-- Read-only catalog view used by _validate_op: the set of object types
of the cfg module visible to get_track_schema_type, the ancestor chain
of each type (closest ancestor first, excluding the type itself), the
referring links of each type in iteration order (schema.get_referrers
with field target, the head of the list modeling next of iter), and the
pointers of cfg::AbstractConfig by short name (maybe_get_ptr). -/
structure Catalog where
  objectTypes : List String
  ancestors : String → List String
  referrers : String → List Ptr
  hostPtrs : String → Option Ptr

/-- Subclass test against cfg::AbstractConfig: a type is under the root
configuration object when it is AbstractConfig itself or has it among
its ancestors (Python issubclass over the schema). -/
def Catalog.underRoot (cat : Catalog) (t : String) : Bool :=
  t = "AbstractConfig" || (cat.ancestors t).contains "AbstractConfig"

/-- Walk of the mro in _validate_op: the candidate link is the first
referring link of the first type in [cfg_type] ++ ancestors that has
any referring link at all. -/
def findPtrCandidate (cat : Catalog) (t : String) : Option Ptr :=
  (t :: cat.ancestors t).findSome? fun ct => (cat.referrers ct).head?

/-- SettingInfo record returned by _validate_op. -/
structure SettingInfo where
  param_name : String
  param_type_name : String
  param_type_is_object : Bool
  cardinality : SchemaCard
  requires_restart : Bool
  backend_setting : Option String
  affects_compilation : Bool
deriving DecidableEq, Repr

/-- Statement kinds of qlast.ConfigOp. -/
inductive OpKind where
  | setOp : OpKind
  | resetOp : OpKind
  | insertOp : OpKind
deriving DecidableEq, Repr

mutual

/-- A qlast shape element: a pointer name with an optional computed
expression. -/
inductive QlShapeElem where
  | noComp (name : String) : QlShapeElem
  | comp (name : String) (e : QlExpr) : QlShapeElem

/-- Fragment of the qlast expression language needed by the config
compiler: insert queries with a subject name and a shape, synthesized
RESET selection queries, plus opaque non-insert expressions. -/
inductive QlExpr where
  | insertQuery (subjectName : String) (shape : List QlShapeElem) : QlExpr
  | selectConfigShape (typeName : String) (whereFilter : Option String) : QlExpr
  | otherExpr (tag : String) : QlExpr

end

/-- Fragment of the compiled IR needed by _validate_config_object: a
set is an expression that may or may not be an InsertStmt, together
with a shape whose elements are triples of the rptr short name, whether
the element typeref is an object type, and the element set itself. -/
inductive IRSetM : Type where
  | mk (isInsert : Bool) (shape : List (String × Bool × IRSetM)) : IRSetM

def IRSetM.isInsert : IRSetM → Bool
  | .mk b _ => b

def IRSetM.shape : IRSetM → List (String × Bool × IRSetM)
  | .mk _ s => s

/-- A CONFIGURE statement as the compiler receives it: operation kind,
optional explicit module on the setting name, the unqualified name, the
scope, the optional RESET filter, and the INSERT shape. -/
structure ConfigOp where
  kind : OpKind
  modName : Option String
  name : String
  scope : ConfigScope
  whereFilter : Option String
  shape : List QlShapeElem

/-- Annotation lookup on a pointer (get_annotations().get by cfg name). -/
def getAnn (anns : List (String × String)) (k : String) : Option String :=
  anns.lookup k

/-- Tail of _validate_op shared by all paths once the pointer and the
config type are known: extract the system, requires_restart,
backend_setting and affects_compilation annotations, reject system
parameters outside Instance scope, and build the SettingInfo. -/
def settingFromPtr (scope : ConfigScope) (pname tyName : String)
    (tyIsObj : Bool) (ptr : Ptr) : Except CompileErr SettingInfo :=
  let system := getAnn ptr.anns "system" = some "true"
  let requires := getAnn ptr.anns "requires_restart" = some "true"
  let backend := getAnn ptr.anns "backend_setting"
  let affects :=
    match getAnn ptr.anns "affects_compilation" with
    | some v => v = "true"
    | none => False
  if system ∧ scope ≠ ConfigScope.Instance then
    .error (.systemLevelScope pname)
  else
    .ok { param_name := pname
          param_type_name := tyName
          param_type_is_object := tyIsObj
          cardinality := ptr.card
          requires_restart := requires
          backend_setting := backend
          affects_compilation := affects }

/-- Embedding of _validate_op (config.py lines 241 to 355). For Set and
Reset the name is first looked up as a pointer of cfg::AbstractConfig;
when that fails, Set rejects the name, while Reset and Insert resolve
the name as a configuration object type and search the mro for a
referring link whose source is under the root configuration object. -/
def validate_op (cat : Catalog) (op : ConfigOp) : Except CompileErr SettingInfo :=
  if op.modName ≠ none ∧ op.modName ≠ some "cfg" then
    .error .queryErrorBadModule
  else
    let ptrA : Option Ptr :=
      if op.kind = OpKind.insertOp then none else cat.hostPtrs op.name
    match ptrA with
    | some ptr =>
        settingFromPtr op.scope op.name ptr.targetName ptr.targetIsObject ptr
    | none =>
        if op.kind = OpKind.setOp then
          .error (.unrecognizedParameter op.name)
        else if ¬ cat.objectTypes.contains op.name then
          .error (.unrecognizedObject op.name)
        else
          match findPtrCandidate cat op.name with
          | none => .error (.cannotConfigureDirectly op.name)
          | some ptr =>
              match ptr.source with
              | none => .error (.cannotConfigureDirectly op.name)
              | some src =>
                  if ¬ cat.underRoot src then
                    .error (.cannotConfigureDirectly op.name)
                  else
                    settingFromPtr op.scope ptr.shortname op.name true ptr

mutual

/-- Embedding of _validate_config_object (config.py lines 226 to 238):
walk the shape, skip elements named id, and recurse into elements that
are object-typed and whose expression is an InsertStmt; no other check
is performed on any element. -/
def validateConfigObject : IRSetM → Except CompileErr Unit
  | .mk _ shape => validateShape shape
  termination_by e => sizeOf e

/-- Element loop of _validate_config_object over a shape. -/
def validateShape : List (String × Bool × IRSetM) → Except CompileErr Unit
  | [] => .ok ()
  | (n, isObj, sub) :: rest =>
      if n = "id" then
        validateShape rest
      else if isObj && sub.isInsert then
        match validateConfigObject sub with
        | .error e => .error e
        | .ok _ => validateShape rest
      else
        validateShape rest
  termination_by l => sizeOf l

end

/-- ShapeElement appended by _inject_tname: a computed, read-only
pointer named _tname whose expression introspects the name of the
subject type of the enclosing insert. -/
def tnameElem (subjectName : String) : QlShapeElem :=
  .comp "_tname" (.otherExpr ("introspect-typename " ++ subjectName))

mutual

/-- Embedding of _inject_tname (config.py lines 198 to 223): inside an
insert, recursively rewrite its nested inserts and then append the
computed _tname element to its shape. -/
def injectTname : QlExpr → QlExpr
  | .insertQuery s sh => .insertQuery s (injectShapeList sh ++ [tnameElem s])
  | e => e
  termination_by e => sizeOf e

/-- Element loop of _inject_tname, also run by compile_ConfigInsert on
the top-level shape (config.py lines 168 to 170): rewrite insert-valued
elements in place, leave everything else alone. -/
def injectShapeList : List QlShapeElem → List QlShapeElem
  | [] => []
  | el :: rest => injectElem el :: injectShapeList rest
  termination_by l => sizeOf l

/-- Rewrite of a single shape element by the _inject_tname loops. -/
def injectElem : QlShapeElem → QlShapeElem
  | .comp n (.insertQuery s sh) => .comp n (injectTname (.insertQuery s sh))
  | el => el
  termination_by el => sizeOf el

end

/-- Compilation context level: the module alias map (modaliases, an
assoc list where lookup finds the most recent binding for a key),
whether expressions are exposed, and the set of special computables
allowed in mutation shapes. -/
structure CtxLevel where
  modaliases : List (Option String × String)
  exprExposed : Bool
  specialComputables : List String

/-- ConfigReset IR node. -/
structure ConfigResetIR where
  name : String
  cardinality : SchemaCard
  scope : ConfigScope
  requires_restart : Bool
  backend_setting : Option String
  selector : Option IRSetM

/-- ConfigInsert IR node. -/
structure ConfigInsertIR where
  name : String
  cardinality : SchemaCard
  scope : ConfigScope
  requires_restart : Bool
  backend_setting : Option String
  expr : IRSetM

/-- External expression compiler (dispatch.compile followed by
setgen.ensure_set), supplied as an oracle from the qlast fragment and
the context to a compiled IR set. -/
def CompileOracle : Type := QlExpr → CtxLevel → IRSetM

/-- Embedding of compile_ConfigReset (config.py lines 89 to 134). The
result carries the IR node together with the context visible to the
caller afterwards: the assignment ctx.modaliases[None] = cfg in the
object-typed branch mutates the caller context in place, so that branch
returns the updated context. -/
def compile_ConfigReset (cat : Catalog) (oracle : CompileOracle)
    (op : ConfigOp) (ctx : CtxLevel) :
    Except CompileErr (ConfigResetIR × CtxLevel) :=
  match validate_op cat op with
  | .error e => .error e
  | .ok info =>
      if ¬ info.param_type_is_object ∧ op.whereFilter ≠ none then
        .error .queryErrorResetFilter
      else if info.param_type_is_object then
        let ctx' : CtxLevel :=
          { ctx with modaliases := (none, "cfg") :: ctx.modaliases }
        let selectIR :=
          oracle (.selectConfigShape info.param_type_name op.whereFilter) ctx'
        .ok ({ name := info.param_name
               cardinality := info.cardinality
               scope := op.scope
               requires_restart := info.requires_restart
               backend_setting := info.backend_setting
               selector := some selectIR }, ctx')
      else
        .ok ({ name := info.param_name
               cardinality := info.cardinality
               scope := op.scope
               requires_restart := info.requires_restart
               backend_setting := info.backend_setting
               selector := none }, ctx)

/-- Embedding of compile_ConfigInsert (config.py lines 137 to 195):
validate the op, reject non-Instance scopes, resolve the subject type,
rewrite nested inserts with _tname, compile the insert in a subcontext
whose copied alias map binds the default module to cfg, validate the
compiled subject, and return the IR node; the caller context is
returned unchanged because the subcontext works on a copy. -/
def compile_ConfigInsert (cat : Catalog) (oracle : CompileOracle)
    (op : ConfigOp) (ctx : CtxLevel) :
    Except CompileErr (ConfigInsertIR × CtxLevel) :=
  match validate_op cat op with
  | .error e => .error e
  | .ok info =>
      if op.scope ≠ ConfigScope.Instance then
        .error (.unsupportedInsertScope op.scope.render)
      else if ¬ cat.objectTypes.contains op.name then
        .error (.notValidConfigItem op.name)
      else
        let insertStmt := QlExpr.insertQuery op.name (injectShapeList op.shape)
        let subctx : CtxLevel :=
          { modaliases := (none, "cfg") :: ctx.modaliases
            exprExposed := true
            specialComputables := ctx.specialComputables ++ ["_tname"] }
        let insertSubject := oracle insertStmt subctx
        match validateConfigObject insertSubject with
        | .error e => .error e
        | .ok _ =>
            .ok ({ name := info.param_name
                   cardinality := info.cardinality
                   scope := op.scope
                   requires_restart := info.requires_restart
                   backend_setting := info.backend_setting
                   expr := insertSubject }, ctx)

end EdgeDBConfig

namespace EdgeDBServer

/-- A network listener (baseport.Port instance) as the server tracks
it: the host and port it was constructed for, and a tag distinguishing
distinct instances. -/
structure Port where
  host : String
  portNo : Nat
  tag : Nat
deriving DecidableEq, Repr

/-- Server state relevant to the management-listener restart: the
recorded management host, port number and listener object, the set of
listeners currently started, and the log. -/
structure MgmtState where
  mgmtHostAddr : String
  mgmtPortNo : Nat
  mgmtPort : Port
  running : List Port
  log : List String
deriving DecidableEq, Repr

/-- Outcomes of the external async operations performed during
_restart_mgmt_port, supplied as oracles: stopping the current
management listener, constructing the replacement (_new_port), starting
the replacement, stopping the failed replacement, and restarting the
original. -/
structure RestartEnv where
  stopOld : Except String Unit
  constructNew : Except String Port
  startNew : Except String Unit
  stopNew : Except String Unit
  startOld : Except String Unit
deriving Repr

/-- Embedding of _restart_mgmt_port (server.py lines 428 to 456). A
successful start adds the port to the running set; a successful stop
removes it; an operation that raises leaves the running set as it was.
The result pairs the raised error (or unit) with the state after the
call, since the Python method mutates the server in place. -/
def restart_mgmt_port (st : MgmtState) (nethost : String) (netport : Nat)
    (env : RestartEnv) : Except String Unit × MgmtState :=
  match env.stopOld with
  | .error e => (.error e, st)
  | .ok _ =>
    let st1 : MgmtState := { st with running := st.running.erase st.mgmtPort }
    match env.constructNew with
    | .error e =>
        match env.startOld with
        | .ok _ => (.error e, { st1 with running := st1.running ++ [st.mgmtPort] })
        | .error e2 => (.error e2, st1)
    | .ok newPort =>
        match env.startNew with
        | .ok _ =>
            (.ok (), { st1 with
                         running := st1.running ++ [newPort]
                         mgmtHostAddr := nethost
                         mgmtPortNo := netport
                         mgmtPort := newPort })
        | .error e =>
            let st2 : MgmtState :=
              match env.stopNew with
              | .ok _ => { st1 with running := st1.running.erase newPort }
              | .error _ =>
                  { st1 with log := st1.log ++ ["could not stop the new server"] }
            match env.startOld with
            | .ok _ => (.error e, { st2 with running := st2.running ++ [st.mgmtPort] })
            | .error e2 => (.error e2, st2)

/-- A protocol configuration tuple keying the listener registry. -/
structure PortConf where
  protocol : String
  address : String
  portNo : Nat
  database : String
  user : String
  concurrency : Nat
deriving DecidableEq, Repr

/-- Protocols _start_portconf can dispatch to a port class. -/
def knownProtocol (p : String) : Bool :=
  p = "graphql+http" || p = "edgeql+http" || p = "notebook"

/-- Server state relevant to _start_portconf and _stop_portconf: the
registry of listeners keyed by protocol configuration, and the log. -/
structure PortsState where
  sysConfPorts : List (PortConf × Port)
  log : List String
deriving DecidableEq, Repr

/-- Embedding of _start_portconf (server.py lines 458 to 499). The
oracles give the constructed port and the outcomes of its start and of
the cleanup stop run when start fails. The result pairs the raised
error or the returned port (none for the already-started no-op) with
the state after the call. Note that in the source the registry
assignment stands after the try statement, so it also runs when a start
failure is suppressed. -/
def start_portconf (st : PortsState) (pc : PortConf) (newPort : Port)
    (startOutcome : Except String Unit) (stopOutcome : Except String Unit)
    (suppressErrors : Bool) : Except String (Option Port) × PortsState :=
  if (st.sysConfPorts.lookup pc).isSome then
    (.ok none,
     { st with log := st.log ++ ["port for config has been already started"] })
  else if ¬ knownProtocol pc.protocol then
    (.error ("unknown protocol " ++ pc.protocol), st)
  else
    match startOutcome with
    | .ok _ =>
        (.ok (some newPort),
         { st with sysConfPorts := st.sysConfPorts ++ [(pc, newPort)]
                   log := st.log ++ ["started port for config"] })
    | .error e =>
        match stopOutcome with
        | .error e2 => (.error e2, st)
        | .ok _ =>
            if suppressErrors then
              (.ok (some newPort),
               { st with sysConfPorts := st.sysConfPorts ++ [(pc, newPort)]
                         log := st.log ++ ["failed to start port for config"] })
            else
              (.error e, st)

def pcW : PortConf :=
  { protocol := "edgeql+http", address := "127.0.0.1", portNo := 8889
    database := "edgedb", user := "edgedb", concurrency := 4 }

def pcPortW : Port := { host := "127.0.0.1", portNo := 8889, tag := 7 }

def emptyPorts : PortsState := { sysConfPorts := [], log := [] }

/-- C4 counterexample: in best-effort mode (suppress_errors) a start
whose hook fails still stores a registration for the key, because the
registry assignment in _start_portconf stands outside the try
statement; the claim that a failed, suppressed start leaves no
registration is false here. -/
theorem start_portconf_suppressed_registers_counterexample :
    ((start_portconf emptyPorts pcW pcPortW (.error "bind failure") (.ok ())
        true).snd.sysConfPorts.lookup pcW) = some pcPortW ∧
      (start_portconf emptyPorts pcW pcPortW (.error "bind failure") (.ok ())
        true).fst = .ok (some pcPortW) := by
  constructor <;> rfl

/-- C4 amended: an already-registered key is a logged no-op leaving the
registry unchanged; for a fresh key of a known protocol whose cleanup
stop succeeds, a registration is stored exactly when the start hook
succeeds or the failure is suppressed (best-effort mode registers the
stopped port despite the failure); only a re-raised start error leaves
no registration. -/
theorem start_portconf_registration (st : PortsState) (pc : PortConf)
    (port : Port) (startO stopO : Except String Unit) (sup : Bool) :
    (st.sysConfPorts.lookup pc = none → knownProtocol pc.protocol = true →
      stopO = .ok () →
      ((start_portconf st pc port startO stopO sup).snd.sysConfPorts.lookup pc
          = some port
        ↔ (startO = .ok () ∨ sup = true))) ∧
      (∀ e, st.sysConfPorts.lookup pc = none →
        knownProtocol pc.protocol = true →
        startO = .error e → stopO = .ok () → sup = false →
        start_portconf st pc port startO stopO sup = (.error e, st)) ∧
      (∀ q, st.sysConfPorts.lookup pc = some q →
        start_portconf st pc port startO stopO sup =
          (.ok none,
            { st with log :=
                st.log ++ ["port for config has been already started"] })) := by
  refine ⟨?_, ?_, ?_⟩
  · intro hfresh hproto hstop
    cases startO with
    | ok u =>
        simp [start_portconf, hfresh, hproto, List.lookup_append]
    | error e =>
        cases u : sup with
        | true =>
            simp [start_portconf, hfresh, hproto, hstop, List.lookup_append]
        | false =>
            simp [start_portconf, hfresh, hproto, hstop, List.lookup, hfresh]
  · intro e hfresh hproto hstart hstop hsup
    subst hstart hstop hsup
    simp [start_portconf, hfresh, hproto]
  · intro q hq
    simp [start_portconf, hq]

/-- A registry in which the configuration pcW is already registered. -/
def regPorts : PortsState := { sysConfPorts := [(pcW, pcPortW)], log := [] }

/-- Witness for start_portconf_registration: a fresh key in best-effort
mode with a failing start hook is registered anyway, a fresh key whose
start failure is re-raised leaves the state untouched, and an
already-registered key is a logged no-op leaving the registry
unchanged. -/
theorem start_portconf_registration_witness :
    ((start_portconf emptyPorts pcW pcPortW (.error "bind failure") (.ok ())
          true).snd.sysConfPorts.lookup pcW = some pcPortW
        ↔ ((.error "bind failure" : Except String Unit) = .ok () ∨
            true = true)) ∧
      start_portconf emptyPorts pcW pcPortW (.error "bind failure") (.ok ())
          false = (.error "bind failure", emptyPorts) ∧
      start_portconf regPorts pcW pcPortW (.ok ()) (.ok ()) false =
        (.ok none,
          { regPorts with log :=
              regPorts.log ++ ["port for config has been already started"] }) :=
  ⟨(start_portconf_registration emptyPorts pcW pcPortW (.error "bind failure")
      (.ok ()) true).1 rfl rfl rfl,
    (start_portconf_registration emptyPorts pcW pcPortW (.error "bind failure")
      (.ok ()) false).2.1 "bind failure" rfl rfl rfl rfl rfl,
    (start_portconf_registration regPorts pcW pcPortW (.ok ()) (.ok ())
      false).2.2 pcPortW rfl⟩

/-- Events observed by the system-connection arbitrator: a caller with
identifier w reaching the await in _acquire_sys_pgcon, or a holder
invoking _release_sys_pgcon. -/
inductive ArbEvent where
  | acquire (w : Nat) : ArbEvent
  | release : ArbEvent
deriving DecidableEq, Repr

/-- Arbitrator state: the asyncio.Queue content (the single connection
handle, present or not, as a list of units), the FIFO list of waiters
blocked in get, the callers currently holding the handle, and the
histories of arrivals and grants. -/
structure ArbState where
  queue : List Unit
  waiters : List Nat
  holders : List Nat
  arrivals : List Nat
  grants : List Nat
deriving DecidableEq, Repr

/-- Initial arbitrator state built by Server.init (server.py lines 163
to 167): a fresh queue seeded with the single system connection by
put_nowait, nobody waiting or holding. -/
def arbInit : ArbState :=
  { queue := [()], waiters := [], holders := [], arrivals := [], grants := [] }

/-- One arbitrator transition, following asyncio.Queue semantics as
used by _acquire_sys_pgcon and _release_sys_pgcon (server.py lines 579
to 585): get returns immediately when an item is queued and otherwise
appends the caller to the FIFO waiter list; put_nowait hands the item
to the first waiter when one exists and otherwise requeues it. A
release with no holder models a protocol violation and is a no-op. -/
def arbStep (st : ArbState) : ArbEvent → ArbState
  | .acquire w =>
      let st := { st with arrivals := st.arrivals ++ [w] }
      match st.queue with
      | _ :: q' =>
          { st with queue := q'
                    holders := st.holders ++ [w]
                    grants := st.grants ++ [w] }
      | [] => { st with waiters := st.waiters ++ [w] }
  | .release =>
      match st.holders with
      | [] => st
      | _ :: hs =>
          match st.waiters with
          | w :: ws =>
              { st with holders := hs ++ [w]
                        waiters := ws
                        grants := st.grants ++ [w] }
          | [] => { st with holders := hs, queue := st.queue ++ [()] }

/-- Run of the arbitrator over a sequence of events. -/
def arbRun (evts : List ArbEvent) : ArbState :=
  evts.foldl arbStep arbInit

/-- Invariant of the arbitrator: grants followed by the waiters still
queued list the arrivals in order (FIFO service), the single connection
handle is either held or queued but never both, and the handle is never
idle in the queue while someone waits. -/
def ArbInv (st : ArbState) : Prop :=
  st.grants ++ st.waiters = st.arrivals ∧
    st.holders.length + st.queue.length = 1 ∧
    (st.queue = [] ∨ st.waiters = [])

theorem arbStep_inv (st : ArbState) (ev : ArbEvent) (h : ArbInv st) :
    ArbInv (arbStep st ev) := by
  obtain ⟨h1, h2, h3⟩ := h
  cases ev with
  | acquire w =>
      dsimp only [arbStep]
      cases hq : st.queue with
      | nil =>
          refine ⟨?_, ?_, Or.inl rfl⟩
          · rw [← List.append_assoc, h1]
          · simpa [hq] using h2
      | cons u q' =>
          have hw : st.waiters = [] := by
            rcases h3 with h3 | h3
            · rw [hq] at h3; cases h3
            · exact h3
          have hlen2 : st.holders.length + (q'.length + 1) = 1 := by
            rw [hq] at h2
            simpa using h2
          have hq' : q' = [] := by
            have : q'.length = 0 := by omega
            exact List.length_eq_zero.mp this
          refine ⟨?_, ?_, Or.inl hq'⟩
          · rw [hw] at h1 ⊢
            simp at h1
            simp [h1]
          · simp
            omega
  | release =>
      dsimp only [arbStep]
      cases hh : st.holders with
      | nil => exact ⟨h1, h2, h3⟩
      | cons hd hs =>
          have hlen : hs.length = 0 ∧ st.queue.length = 0 := by
            rw [hh] at h2; simp at h2; omega
          cases hw : st.waiters with
          | nil =>
              refine ⟨?_, ?_, Or.inr rfl⟩
              · rw [hw] at h1; simpa using h1
              · simp [hlen.1, hlen.2]
          | cons w ws =>
              have hqnil : st.queue = [] :=
                List.length_eq_zero.mp hlen.2
              refine ⟨?_, ?_, Or.inl hqnil⟩
              · rw [hw] at h1
                rw [← h1]
                simp
              · simp [hlen.1, hlen.2]

theorem arbRun_inv (evts : List ArbEvent) : ArbInv (arbRun evts) := by
  have hinit : ArbInv arbInit := by
    refine ⟨rfl, rfl, Or.inr rfl⟩
  rw [arbRun]
  induction evts using List.reverseRecOn with
  | nil => exact hinit
  | append_singleton t ev ih =>
      rw [List.foldl_append]
      exact arbStep_inv _ ev ih

/-- C3: over every sequence of acquire and release events, the system
connection arbitrator grants the handle in strict FIFO order of
enqueueing (the grant history extended by the still-queued waiters is
exactly the arrival history), and at most one caller holds the handle
at any time. -/
theorem arbitrator_fifo_single_holder (evts : List ArbEvent) :
    (arbRun evts).grants ++ (arbRun evts).waiters = (arbRun evts).arrivals ∧
      (arbRun evts).grants =
        (arbRun evts).arrivals.take (arbRun evts).grants.length ∧
      (arbRun evts).holders.length ≤ 1 := by
  obtain ⟨h1, h2, _⟩ := arbRun_inv evts
  refine ⟨h1, ?_, by omega⟩
  rw [← h1]
  simp

/-- An authentication rule as stored in the auth config setting: its
priority, the set of user names it covers, and its method. -/
structure AuthRule where
  priority : Int
  user : List String
  method : String
deriving DecidableEq, Repr

/-- System configuration as read through config.lookup: the value of
the auth setting, when set. -/
structure SysConfig where
  auth : Option (List AuthRule)

/-- Embedding of _populate_sys_auth (server.py lines 213 to 216): read
the auth setting from the system configuration, defaulting to the empty
tuple, and cache it sorted by rule priority. -/
def populate_sys_auth (cfg : SysConfig) : List AuthRule :=
  (cfg.auth.getD []).mergeSort fun a b => a.priority ≤ b.priority

/-- Server state relevant to the auth after-hooks: the current system
configuration snapshot and the cached auth tuple. -/
structure AuthState where
  cfg : SysConfig
  sysAuth : List AuthRule

/-- Embedding of _after_system_config_add (server.py lines 561 to 564):
after a committed system config INSERT, repopulate the auth cache when
the setting is auth, otherwise do nothing. -/
def after_system_config_add (st : AuthState) (settingName : String) : AuthState :=
  if settingName = "auth" then
    { st with sysAuth := populate_sys_auth st.cfg }
  else st

/-- Embedding of _after_system_config_rem (server.py lines 566 to 569):
after a committed system config RESET of an object, repopulate the auth
cache when the setting is auth, otherwise do nothing. -/
def after_system_config_rem (st : AuthState) (settingName : String) : AuthState :=
  if settingName = "auth" then
    { st with sysAuth := populate_sys_auth st.cfg }
  else st

/-- Result of get_auth_method: either the freshly constructed default
SCRAM method instance, or the method object of a matching rule. -/
inductive MethodResult where
  | defaultSCRAM : MethodResult
  | ruleMethod (m : String) : MethodResult
deriving DecidableEq, Repr

/-- Embedding of get_auth_method (server.py lines 679 to 692): an empty
cached auth list yields a default SCRAM instance; otherwise the first
rule whose user set contains the user or the wildcard wins, and with no
match the function falls off the loop and returns None. -/
def get_auth_method (sysAuth : List AuthRule) (user : String) :
    Option MethodResult :=
  match sysAuth with
  | [] => some .defaultSCRAM
  | _ =>
      (sysAuth.find? fun a => a.user.contains user || a.user.contains "*").map
        fun a => .ruleMethod a.method

/-- C1: for every management-listener restart request where the
replacement construction or start fails and restarting the original
succeeds, _restart_mgmt_port leaves the original listener running
again, leaves the recorded management host, port and listener fields
unchanged, and re-raises the original error. -/
theorem restart_mgmt_port_rollback (st : MgmtState) (nethost : String)
    (netport : Nat) (env : RestartEnv) (e : String)
    (hstop : env.stopOld = .ok ())
    (hfail : env.constructNew = .error e ∨
      (∃ p, env.constructNew = .ok p ∧ env.startNew = .error e))
    (hold : env.startOld = .ok ()) :
    (restart_mgmt_port st nethost netport env).fst = .error e ∧
      (restart_mgmt_port st nethost netport env).snd.mgmtHostAddr =
        st.mgmtHostAddr ∧
      (restart_mgmt_port st nethost netport env).snd.mgmtPortNo =
        st.mgmtPortNo ∧
      (restart_mgmt_port st nethost netport env).snd.mgmtPort = st.mgmtPort ∧
      st.mgmtPort ∈ (restart_mgmt_port st nethost netport env).snd.running := by
  rcases hfail with hc | ⟨p, hc, hs⟩
  · simp [restart_mgmt_port, hstop, hc, hold]
  · cases hsn : env.stopNew with
    | ok u => simp [restart_mgmt_port, hstop, hc, hs, hsn, hold]
    | error e2 => simp [restart_mgmt_port, hstop, hc, hs, hsn, hold]

def portW : Port := { host := "localhost", portNo := 10701, tag := 0 }

def mgmtW : MgmtState :=
  { mgmtHostAddr := "localhost", mgmtPortNo := 10701, mgmtPort := portW
    running := [portW], log := [] }

def envConstructFails : RestartEnv :=
  { stopOld := .ok (), constructNew := .error "address already in use"
    startNew := .ok (), stopNew := .ok (), startOld := .ok () }

/-- Witness for restart_mgmt_port_rollback at a concrete state and
environment in which the replacement construction fails. -/
theorem restart_mgmt_port_rollback_witness :
    (restart_mgmt_port mgmtW "0.0.0.0" 10702 envConstructFails).fst =
        .error "address already in use" ∧
      (restart_mgmt_port mgmtW "0.0.0.0" 10702 envConstructFails).snd.mgmtHostAddr =
        mgmtW.mgmtHostAddr ∧
      (restart_mgmt_port mgmtW "0.0.0.0" 10702 envConstructFails).snd.mgmtPortNo =
        mgmtW.mgmtPortNo ∧
      (restart_mgmt_port mgmtW "0.0.0.0" 10702 envConstructFails).snd.mgmtPort =
        mgmtW.mgmtPort ∧
      mgmtW.mgmtPort ∈
        (restart_mgmt_port mgmtW "0.0.0.0" 10702 envConstructFails).snd.running :=
  restart_mgmt_port_rollback mgmtW "0.0.0.0" 10702 envConstructFails
    "address already in use" rfl (Or.inl rfl) rfl

def portNewW : Port := { host := "10.0.0.1", portNo := 10702, tag := 1 }

def envDoubleFail : RestartEnv :=
  { stopOld := .ok (), constructNew := .ok portNewW
    startNew := .error "replacement start failed"
    stopNew := .ok (), startOld := .error "original start failed" }

/-- C6 counterexample: when restarting the original listener also
fails, the code raises the rollback failure, not the original start
error, and logs nothing about it: the claim that the rollback failure
is logged and the original start error re-raised is false here. -/
theorem restart_rollback_failure_counterexample :
    (restart_mgmt_port mgmtW "10.0.0.1" 10702 envDoubleFail).fst =
        .error "original start failed" ∧
      (restart_mgmt_port mgmtW "10.0.0.1" 10702 envDoubleFail).fst ≠
        .error "replacement start failed" ∧
      (restart_mgmt_port mgmtW "10.0.0.1" 10702 envDoubleFail).snd.log = [] := by
  refine ⟨rfl, ?_, rfl⟩
  have h1 : (restart_mgmt_port mgmtW "10.0.0.1" 10702 envDoubleFail).fst =
      Except.error "original start failed" := rfl
  rw [h1]
  exact fun hco => absurd (Except.error.inj hco) (by decide)

/-- C6 amended: when the replacement fails to start and restarting the
original also fails, the rollback failure propagates to the caller in
place of the original start error; only a failure to stop the
replacement is logged and swallowed. -/
theorem restart_rollback_failure_propagates (st : MgmtState)
    (nethost : String) (netport : Nat) (env : RestartEnv)
    (p : Port) (e1 e2 : String)
    (hstop : env.stopOld = .ok ())
    (hc : env.constructNew = .ok p)
    (hs : env.startNew = .error e1)
    (ho : env.startOld = .error e2) :
    (restart_mgmt_port st nethost netport env).fst = .error e2 ∧
      (restart_mgmt_port st nethost netport env).snd.log =
        st.log ++
          (match env.stopNew with
           | .ok _ => []
           | .error _ => ["could not stop the new server"]) := by
  cases hsn : env.stopNew with
  | ok u => simp [restart_mgmt_port, hstop, hc, hs, hsn, ho]
  | error e3 => simp [restart_mgmt_port, hstop, hc, hs, hsn, ho]

/-- Witness for restart_rollback_failure_propagates at a concrete state
and environment. -/
theorem restart_rollback_failure_propagates_witness :
    (restart_mgmt_port mgmtW "10.0.0.1" 10702 envDoubleFail).fst =
        .error "original start failed" ∧
      (restart_mgmt_port mgmtW "10.0.0.1" 10702 envDoubleFail).snd.log =
        mgmtW.log ++
          (match envDoubleFail.stopNew with
           | .ok _ => []
           | .error _ => ["could not stop the new server"]) :=
  restart_rollback_failure_propagates mgmtW "10.0.0.1" 10702 envDoubleFail
    portNewW "replacement start failed" "original start failed"
    rfl rfl rfl rfl

theorem populate_sys_auth_perm (cfg : SysConfig) :
    (populate_sys_auth cfg).Perm (cfg.auth.getD []) :=
  List.mergeSort_perm _ _

theorem populate_sys_auth_sorted (cfg : SysConfig) :
    List.Sorted (fun a b : AuthRule => a.priority ≤ b.priority)
      (populate_sys_auth cfg) := by
  have htrans : ∀ a b c : AuthRule,
      (decide (a.priority ≤ b.priority)) = true →
      (decide (b.priority ≤ c.priority)) = true →
      (decide (a.priority ≤ c.priority)) = true := by
    intro a b c hab hbc
    simp only [decide_eq_true_eq] at *
    omega
  have htotal : ∀ a b : AuthRule,
      ((decide (a.priority ≤ b.priority)) ||
        (decide (b.priority ≤ a.priority))) = true := by
    intro a b
    by_cases h : a.priority ≤ b.priority
    · simp [h]
    · simp only [Bool.or_eq_true, decide_eq_true_eq]
      omega
  have h := List.sorted_mergeSort htrans htotal (cfg.auth.getD [])
  exact List.Pairwise.imp (fun hab => of_decide_eq_true hab) h

/-- C8: after a committed add or remove of the auth setting, the after
hooks rebuild the cached authentication rule list from the current
system configuration, as a permutation of the configured rules sorted
in ascending order of priority. -/
theorem auth_after_hooks_rebuild_sorted (st : AuthState) :
    (after_system_config_add st "auth").sysAuth = populate_sys_auth st.cfg ∧
      (after_system_config_rem st "auth").sysAuth = populate_sys_auth st.cfg ∧
      ((after_system_config_add st "auth").sysAuth).Perm
        (st.cfg.auth.getD []) ∧
      List.Sorted (fun a b : AuthRule => a.priority ≤ b.priority)
        (after_system_config_add st "auth").sysAuth ∧
      ((after_system_config_rem st "auth").sysAuth).Perm
        (st.cfg.auth.getD []) ∧
      List.Sorted (fun a b : AuthRule => a.priority ≤ b.priority)
        (after_system_config_rem st "auth").sysAuth := by
  have hadd : (after_system_config_add st "auth").sysAuth =
      populate_sys_auth st.cfg := by
    simp [after_system_config_add]
  have hrem : (after_system_config_rem st "auth").sysAuth =
      populate_sys_auth st.cfg := by
    simp [after_system_config_rem]
  refine ⟨hadd, hrem, ?_, ?_, ?_, ?_⟩
  · rw [hadd]; exact populate_sys_auth_perm st.cfg
  · rw [hadd]; exact populate_sys_auth_sorted st.cfg
  · rw [hrem]; exact populate_sys_auth_perm st.cfg
  · rw [hrem]; exact populate_sys_auth_sorted st.cfg

/-- C9: get_auth_method returns the freshly constructed default SCRAM
method when the cached auth list is empty, but on a non-empty list with
no rule matching the user (directly or through the wildcard) it returns
None rather than falling back to the default. -/
theorem get_auth_method_default_vs_none :
    (∀ u : String, get_auth_method [] u = some MethodResult.defaultSCRAM) ∧
      (∀ (l : List AuthRule) (u : String), l ≠ [] →
        (∀ a ∈ l, a.user.contains u = false ∧ a.user.contains "*" = false) →
        get_auth_method l u = none) := by
  constructor
  · intro u
    rfl
  · intro l u hne hnomatch
    cases l with
    | nil => exact absurd rfl hne
    | cons a t =>
        show (List.find? _ (a :: t)).map _ = none
        rw [List.find?_eq_none.mpr]
        · rfl
        · intro x hx
          obtain ⟨h1, h2⟩ := hnomatch x hx
          simp at h1 h2
          simp [h1, h2]

def ruleTrust : AuthRule :=
  { priority := 0, user := ["admin"], method := "Trust" }

/-- Witness for get_auth_method_default_vs_none: the empty list yields
the default SCRAM method for user bob, and a non-empty list whose only
rule covers admin yields no method for bob. -/
theorem get_auth_method_default_vs_none_witness :
    get_auth_method [] "bob" = some MethodResult.defaultSCRAM ∧
      get_auth_method [ruleTrust] "bob" = none :=
  ⟨get_auth_method_default_vs_none.1 "bob",
    get_auth_method_default_vs_none.2 [ruleTrust] "bob" (by decide)
      (by decide)⟩

end EdgeDBServer

namespace EdgeDBConfig

/-- The cfg::Auth link of the configuration schema with no system
annotation, used to exercise the non-system resolution paths. -/
def authLinkW : Ptr :=
  { shortname := "auth", targetName := "Auth", targetIsObject := true
    card := .Many, anns := [], source := some "AbstractConfig" }

/-- A small catalog: one configuration object type Auth reachable from
the root configuration object through the auth link. -/
def catW : Catalog :=
  { objectTypes := ["Auth"]
    ancestors := fun t => if t = "Auth" then ["ConfigObject"] else []
    referrers := fun t => if t = "Auth" then [authLinkW] else []
    hostPtrs := fun _ => none }

def ctxW : CtxLevel :=
  { modaliases := [(some "std", "std")], exprExposed := false
    specialComputables := [] }

def oracleW : CompileOracle := fun _ _ => IRSetM.mk true []

def opInsertAuthSession : ConfigOp :=
  { kind := .insertOp, modName := none, name := "Auth"
    scope := .Session, whereFilter := none, shape := [] }

def opInsertAuthInstance : ConfigOp :=
  { kind := .insertOp, modName := none, name := "Auth"
    scope := .Instance, whereFilter := none, shape := [] }

def opInsertBogusSession : ConfigOp :=
  { kind := .insertOp, modName := none, name := "Bogus"
    scope := .Session, whereFilter := none, shape := [] }

/-- C5 counterexample: a CONFIGURE SESSION INSERT of an unrecognized
target name fails with a ConfigurationError from _validate_op, not
with an UnsupportedFeatureError, because _validate_op runs before the
scope check; the claim that every non-Instance INSERT fails with
UnsupportedFeatureError for any target name is false here. -/
theorem config_insert_scope_counterexample :
    compile_ConfigInsert catW oracleW opInsertBogusSession ctxW =
        .error (.unrecognizedObject "Bogus") ∧
      (CompileErr.unrecognizedObject "Bogus").isUnsupportedFeatureError =
        false ∧
      (CompileErr.unrecognizedObject "Bogus").isConfigurationError = true ∧
      opInsertBogusSession.scope ≠ ConfigScope.Instance :=
  ⟨rfl, rfl, rfl, by decide⟩

/-- C5 amended: every CONFIGURE INSERT issued at a scope other than
Instance whose target name passes setting validation (_validate_op
succeeds) fails with UnsupportedFeatureError; when validation itself
fails, its QueryError or ConfigurationError is raised first. -/
theorem compile_ConfigInsert_scope (cat : Catalog) (oracle : CompileOracle)
    (op : ConfigOp) (ctx : CtxLevel) (info : SettingInfo)
    (hok : validate_op cat op = .ok info)
    (hscope : op.scope ≠ ConfigScope.Instance) :
    compile_ConfigInsert cat oracle op ctx =
        .error (.unsupportedInsertScope op.scope.render) ∧
      (CompileErr.unsupportedInsertScope op.scope.render
        ).isUnsupportedFeatureError = true := by
  constructor
  · simp only [compile_ConfigInsert, hok]
    rw [if_pos hscope]
  · rfl

/-- Witness for compile_ConfigInsert_scope: inserting the resolvable
Auth object at Session scope fails with UnsupportedFeatureError. -/
theorem compile_ConfigInsert_scope_witness :
    compile_ConfigInsert catW oracleW opInsertAuthSession ctxW =
        .error (.unsupportedInsertScope opInsertAuthSession.scope.render) ∧
      (CompileErr.unsupportedInsertScope opInsertAuthSession.scope.render
        ).isUnsupportedFeatureError = true :=
  compile_ConfigInsert_scope catW oracleW opInsertAuthSession ctxW
    { param_name := "auth", param_type_name := "Auth"
      param_type_is_object := true, cardinality := .Many
      requires_restart := false, backend_setting := none
      affects_compilation := false }
    rfl (by decide)

/-- A compiled insert shape whose method element is an object-typed
reference to a pre-existing object (its expression is not an
InsertStmt). -/
def refShapeIR : IRSetM :=
  .mk true [("method", true, .mk false [])]

theorem validate_totals (n : Nat) :
    (∀ e : IRSetM, sizeOf e ≤ n → validateConfigObject e = .ok ()) ∧
      (∀ l : List (String × Bool × IRSetM), sizeOf l ≤ n →
        validateShape l = .ok ()) := by
  induction n with
  | zero =>
      constructor
      · intro e h
        cases e with
        | mk b s => simp at h
      · intro l h
        cases l with
        | nil => simp at h
        | cons a t => simp at h
  | succ n ih =>
      constructor
      · intro e h
        cases e with
        | mk b s =>
            have hs : sizeOf s ≤ n := by
              simp at h; omega
            unfold validateConfigObject
            exact ih.2 s hs
      · intro l h
        match l with
        | [] => unfold validateShape; rfl
        | (nm, isObj, sub) :: rest =>
            have hrest : sizeOf rest ≤ n := by
              simp at h; omega
            have hsub : sizeOf sub ≤ n := by
              simp at h; omega
            unfold validateShape
            by_cases hnm : nm = "id"
            · rw [if_pos hnm]
              exact ih.2 rest hrest
            · rw [if_neg hnm]
              by_cases hobj : (isObj && sub.isInsert) = true
              · simp only [hobj, if_true]
                rw [ih.1 sub hsub]
                exact ih.2 rest hrest
              · simp only [Bool.not_eq_true] at hobj
                simp only [hobj, Bool.false_eq_true, if_false]
                exact ih.2 rest hrest

/-- C2 amended: the bottom-up validation of a compiled CONFIGURE
INSERT shape recurses into nested inserts only and skips identity
fields, but it rejects nothing: _validate_config_object succeeds on
every compiled shape, so a reference to a pre-existing object is
accepted rather than causing compilation to fail. -/
theorem validate_config_object_accepts_everything (e : IRSetM) :
    validateConfigObject e = .ok () :=
  (validate_totals (sizeOf e)).1 e (Nat.le_refl _)

/-- C2 counterexample: a compiled shape whose method element is an
object-typed reference to a pre-existing object (not a nested insert)
passes validation, and the surrounding CONFIGURE INSTANCE INSERT
compilation succeeds; the claim that such a reference is rejected is
false here. -/
theorem validate_config_object_reference_counterexample :
    validateConfigObject refShapeIR = .ok () ∧
      refShapeIR.shape = [("method", true, IRSetM.mk false [])] ∧
      ("method" ≠ "id" ∧ (IRSetM.mk false []).isInsert = false) ∧
      (compile_ConfigInsert catW (fun _ _ => refShapeIR)
        opInsertAuthInstance ctxW).isOk = true := by
  refine ⟨?_, rfl, by decide, ?_⟩
  · unfold validateConfigObject refShapeIR
    unfold validateShape
    norm_num [IRSetM.isInsert]
    unfold validateShape
    rfl
  · have hv : validateConfigObject refShapeIR = .ok () := by
      unfold validateConfigObject refShapeIR
      unfold validateShape
      norm_num [IRSetM.isInsert]
      unfold validateShape
      rfl
    simp only [compile_ConfigInsert]
    have hok : validate_op catW opInsertAuthInstance =
        .ok { param_name := "auth", param_type_name := "Auth"
              param_type_is_object := true, cardinality := .Many
              requires_restart := false, backend_setting := none
              affects_compilation := false } := rfl
    rw [hok]
    simp only [opInsertAuthInstance, catW, hv]
    rfl


/-- Outcome shape of settingFromPtr: it raises only the system-level
scope error, and otherwise returns a SettingInfo whose param_name is
the given pointer name. -/
theorem settingFromPtr_cases (scope : ConfigScope) (pname tyName : String)
    (tyIsObj : Bool) (ptr : Ptr) :
    (settingFromPtr scope pname tyName tyIsObj ptr =
        .error (.systemLevelScope pname)) ∨
      (∃ info, settingFromPtr scope pname tyName tyIsObj ptr = .ok info ∧
        info.param_name = pname) := by
  simp only [settingFromPtr]
  by_cases h : getAnn ptr.anns "system" = some "true" ∧
      ¬ scope = ConfigScope.Instance
  · left
    rw [if_pos h]
  · right
    rw [if_neg h]
    exact ⟨_, rfl, rfl⟩

theorem findSome_head_char (g : String → List Ptr) (l : List String)
    (p : Ptr) :
    (l.findSome? fun ct => (g ct).head?) = some p ↔
      ∃ l1 ct l2, l = l1 ++ ct :: l2 ∧ (∀ c ∈ l1, g c = []) ∧
        (g ct).head? = some p := by
  induction l with
  | nil => simp
  | cons a t ih =>
      rw [List.findSome?_cons]
      cases hga : (g a).head? with
      | some q =>
          constructor
          · intro h
            refine ⟨[], a, t, rfl, by simp, ?_⟩
            rw [hga]
            exact h
          · rintro ⟨l1, ct, l2, heq, hemp, hct⟩
            cases l1 with
            | nil =>
                simp only [List.nil_append] at heq
                obtain ⟨h1, h2⟩ := List.cons.inj heq
                rw [← h1] at hct
                rw [hga] at hct
                exact hct
            | cons b bt =>
                simp only [List.cons_append] at heq
                obtain ⟨h1, h2⟩ := List.cons.inj heq
                have hb : g b = [] := hemp b (List.mem_cons_self b bt)
                rw [h1, hb] at hga
                cases hga
      | none =>
          rw [ih]
          have hganil : g a = [] := by
            cases hl : g a with
            | nil => rfl
            | cons x xs => rw [hl] at hga; cases hga
          constructor
          · rintro ⟨l1, ct, l2, heq, hemp, hct⟩
            refine ⟨a :: l1, ct, l2, by rw [heq, List.cons_append], ?_, hct⟩
            intro c hc
            rcases List.mem_cons.mp hc with hc | hc
            · rw [hc]; exact hganil
            · exact hemp c hc
          · rintro ⟨l1, ct, l2, heq, hemp, hct⟩
            cases l1 with
            | nil =>
                simp only [List.nil_append] at heq
                obtain ⟨h1, h2⟩ := List.cons.inj heq
                rw [← h1, hganil] at hct
                cases hct
            | cons b bt =>
                simp only [List.cons_append] at heq
                obtain ⟨h1, h2⟩ := List.cons.inj heq
                exact ⟨bt, ct, l2, h2,
                  fun c hc => hemp c (List.mem_cons_of_mem b hc), hct⟩

/-- Normal form of _validate_op on the object-resolution path: with an
acceptable module qualifier, a Set-or-Reset pointer lookup that does
not hit, and a name that is a known configuration object type, the
result is determined by the mro walk and the source check on the found
link. -/
theorem validate_op_object_view (cat : Catalog) (op : ConfigOp)
    (hkind : op.kind = OpKind.insertOp ∨
      (op.kind = OpKind.resetOp ∧ cat.hostPtrs op.name = none))
    (hmod : op.modName = none ∨ op.modName = some "cfg")
    (hobj : cat.objectTypes.contains op.name = true) :
    validate_op cat op =
      (match findPtrCandidate cat op.name with
        | none => .error (.cannotConfigureDirectly op.name)
        | some ptr =>
            match ptr.source with
            | none => .error (.cannotConfigureDirectly op.name)
            | some src =>
                if ¬ cat.underRoot src then
                  .error (.cannotConfigureDirectly op.name)
                else
                  settingFromPtr op.scope ptr.shortname op.name true ptr) := by
  have hmod2 : ¬ (op.modName ≠ none ∧ op.modName ≠ some "cfg") := by
    rcases hmod with h | h <;> simp [h]
  have hobj2 : op.name ∈ cat.objectTypes := by simpa using hobj
  rcases hkind with hk | ⟨hk, hp⟩
  · simp [validate_op, hmod2, hk, hobj2]
  · simp [validate_op, hmod2, hk, hp, hobj2]

/-- C7: on the object-resolution path, the Setting Resolver walks the
ancestor chain most-derived first and selects the first referring link
of the first type along it that has one; it fails with the
ConfigurationError naming the type as not directly configurable exactly
when no such link exists or the found link has no source or a source
not under the root configuration object; and a successful resolution
names the found link. -/
theorem validate_op_object_resolution (cat : Catalog) (op : ConfigOp)
    (hkind : op.kind = OpKind.insertOp ∨
      (op.kind = OpKind.resetOp ∧ cat.hostPtrs op.name = none))
    (hmod : op.modName = none ∨ op.modName = some "cfg")
    (hobj : cat.objectTypes.contains op.name = true) :
    (∀ p, findPtrCandidate cat op.name = some p ↔
        ∃ l1 ct l2, op.name :: cat.ancestors op.name = l1 ++ ct :: l2 ∧
          (∀ c ∈ l1, cat.referrers c = []) ∧
          (cat.referrers ct).head? = some p) ∧
      (validate_op cat op = .error (.cannotConfigureDirectly op.name) ↔
        (findPtrCandidate cat op.name = none ∨
          ∃ p, findPtrCandidate cat op.name = some p ∧
            (p.source = none ∨
              ∃ s, p.source = some s ∧ cat.underRoot s = false))) ∧
      (∀ info, validate_op cat op = .ok info →
        ∃ p s, findPtrCandidate cat op.name = some p ∧
          p.source = some s ∧ cat.underRoot s = true ∧
          info.param_name = p.shortname) := by
  have hview := validate_op_object_view cat op hkind hmod hobj
  refine ⟨fun p => findSome_head_char cat.referrers _ p, ?_, ?_⟩
  · rw [hview]
    cases hc : findPtrCandidate cat op.name with
    | none => simp
    | some ptr =>
        dsimp only
        cases hps : ptr.source with
        | none =>
            dsimp only
            constructor
            · intro _
              exact Or.inr ⟨ptr, rfl, Or.inl hps⟩
            · intro _
              rfl
        | some src =>
            dsimp only
            by_cases hur : cat.underRoot src = true
            · rw [if_neg (by simp [hur])]
              constructor
              · intro hcon
                exfalso
                rcases settingFromPtr_cases op.scope ptr.shortname op.name
                    true ptr with heq | ⟨info, heq, _⟩ <;>
                  rw [heq] at hcon <;> simp at hcon
              · rintro (hno | ⟨p2, hp2, hbad⟩)
                · cases hno
                · obtain rfl : ptr = p2 := Option.some.inj hp2
                  rcases hbad with hbad | ⟨s2, hs2, hbad⟩
                  · rw [hps] at hbad; cases hbad
                  · obtain rfl : src = s2 := Option.some.inj (hps ▸ hs2)
                    rw [hur] at hbad
                    cases hbad
            · rw [if_pos (by simpa using hur)]
              constructor
              · intro _
                exact Or.inr ⟨ptr, rfl,
                  Or.inr ⟨src, hps, by simpa using hur⟩⟩
              · intro _
                rfl
  · intro info hok
    rw [hview] at hok
    cases hc : findPtrCandidate cat op.name with
    | none =>
        rw [hc] at hok
        cases hok
    | some ptr =>
        rw [hc] at hok
        dsimp only at hok
        cases hps : ptr.source with
        | none =>
            rw [hps] at hok
            cases hok
        | some src =>
            rw [hps] at hok
            dsimp only at hok
            by_cases hur : cat.underRoot src = true
            · rw [if_neg (by simp [hur])] at hok
              refine ⟨ptr, src, rfl, hps, hur, ?_⟩
              rcases settingFromPtr_cases op.scope ptr.shortname op.name
                  true ptr with heq | ⟨info2, heq, hname⟩
              · rw [heq] at hok
                cases hok
              · rw [heq] at hok
                obtain rfl : info2 = info := Except.ok.inj hok
                exact hname
            · rw [if_pos (by simpa using hur)] at hok
              cases hok

/-- Witness for validate_op_object_resolution at the concrete catalog
catW and the Auth insert operation, whose resolution succeeds through
the auth link of the root configuration object. -/
theorem validate_op_object_resolution_witness :
    (∀ p, findPtrCandidate catW opInsertAuthInstance.name = some p ↔
        ∃ l1 ct l2,
          opInsertAuthInstance.name ::
              catW.ancestors opInsertAuthInstance.name = l1 ++ ct :: l2 ∧
          (∀ c ∈ l1, catW.referrers c = []) ∧
          (catW.referrers ct).head? = some p) ∧
      (validate_op catW opInsertAuthInstance =
          .error (.cannotConfigureDirectly opInsertAuthInstance.name) ↔
        (findPtrCandidate catW opInsertAuthInstance.name = none ∨
          ∃ p, findPtrCandidate catW opInsertAuthInstance.name = some p ∧
            (p.source = none ∨
              ∃ s, p.source = some s ∧ catW.underRoot s = false))) ∧
      (∀ info, validate_op catW opInsertAuthInstance = .ok info →
        ∃ p s, findPtrCandidate catW opInsertAuthInstance.name = some p ∧
          p.source = some s ∧ catW.underRoot s = true ∧
          info.param_name = p.shortname) :=
  validate_op_object_resolution catW opInsertAuthInstance
    (Or.inl rfl) (Or.inl rfl) rfl

/-- C10: a successful compile_ConfigReset of an object-typed
configuration parameter returns to its caller a context whose default
module alias is bound to cfg (the mutation is made on the caller map
and never restored), while compile_ConfigInsert binds the same alias
only in a copied subcontext and returns the caller context unchanged. -/
theorem config_reset_mutates_caller_ctx (cat : Catalog)
    (oracle : CompileOracle) (op : ConfigOp) (ctx : CtxLevel) :
    (∀ info outR, validate_op cat op = .ok info →
      info.param_type_is_object = true →
      compile_ConfigReset cat oracle op ctx = .ok outR →
      outR.2.modaliases = (none, "cfg") :: ctx.modaliases ∧
        outR.2.modaliases.lookup none = some "cfg") ∧
      (∀ outI, compile_ConfigInsert cat oracle op ctx = .ok outI →
        outI.2 = ctx) := by
  constructor
  · intro info outR hok hobj hc
    simp only [compile_ConfigReset, hok] at hc
    rw [if_neg (fun hcon => hcon.1 (by simp [hobj]))] at hc
    rw [if_pos (by simp [hobj])] at hc
    obtain rfl : _ = outR := Except.ok.inj hc
    exact ⟨rfl, rfl⟩
  · intro outI hI
    cases hv : validate_op cat op with
    | error e =>
        simp only [compile_ConfigInsert, hv] at hI
        cases hI
    | ok info =>
        simp only [compile_ConfigInsert, hv] at hI
        by_cases hsc : op.scope ≠ ConfigScope.Instance
        · rw [if_pos hsc] at hI; cases hI
        · rw [if_neg hsc] at hI
          by_cases hco : ¬ cat.objectTypes.contains op.name
          · rw [if_pos hco] at hI; cases hI
          · rw [if_neg hco] at hI
            rw [(validate_totals _).1 _ (Nat.le_refl _)] at hI
            obtain rfl : _ = outI := Except.ok.inj hI
            rfl

def opResetAuthInstance : ConfigOp :=
  { kind := .resetOp, modName := none, name := "Auth"
    scope := .Instance, whereFilter := none, shape := [] }

def infoAuthW : SettingInfo :=
  { param_name := "auth", param_type_name := "Auth"
    param_type_is_object := true, cardinality := .Many
    requires_restart := false, backend_setting := none
    affects_compilation := false }

def resetOutW : ConfigResetIR × CtxLevel :=
  ({ name := "auth", cardinality := .Many, scope := .Instance
     requires_restart := false, backend_setting := none
     selector := some (IRSetM.mk true []) },
   { ctxW with modaliases := (none, "cfg") :: ctxW.modaliases })

def insertOutW : ConfigInsertIR × CtxLevel :=
  ({ name := "auth", cardinality := .Many, scope := .Instance
     requires_restart := false, backend_setting := none
     expr := IRSetM.mk true [] }, ctxW)

/-- Witness for config_reset_mutates_caller_ctx: resetting the
object-typed Auth parameter hands the caller the mutated alias map,
while inserting Auth hands back the caller context unchanged. -/
theorem config_reset_mutates_caller_ctx_witness :
    (resetOutW.2.modaliases = (none, "cfg") :: ctxW.modaliases ∧
      resetOutW.2.modaliases.lookup none = some "cfg") ∧
      insertOutW.2 = ctxW :=
  ⟨(config_reset_mutates_caller_ctx catW oracleW opResetAuthInstance
      ctxW).1 infoAuthW resetOutW rfl rfl rfl,
    (config_reset_mutates_caller_ctx catW oracleW opInsertAuthInstance
      ctxW).2 insertOutW
      (by
        have hok2 : validate_op catW opInsertAuthInstance = .ok infoAuthW :=
          rfl
        have hv2 : validateConfigObject (IRSetM.mk true []) = .ok () :=
          (validate_totals (sizeOf (IRSetM.mk true []))).1 _ (Nat.le_refl _)
        simp only [compile_ConfigInsert]
        rw [hok2]
        simp only [opInsertAuthInstance, catW, oracleW, hv2]
        rfl)⟩

end EdgeDBConfig
